import Mathlib

/-!
Verification of the Unicornia repository's roleplay action catalog
(`src/roleplay/actions.py`) and the moderation member finder
(`src/modhelper/main.py`), as a shallow embedding in Lean 4.

Modelling conventions:
* A decoded YAML document is a `Value`; `Option Value` models the outcome of
  `yaml.safe_load` (`none` = the parser raised, caught by the bare `except`).
* Python dataclass construction `Action(name=..., **data)` raises `TypeError`
  when `data` is not a mapping, contains the key `name` (duplicate keyword),
  contains a key that is not a field, or omits `description`/`help` (both are
  fields with no default).  These uncaught exceptions are modelled by
  `Except.error`.
* Diagnostics (`print` in `__post_init__`, `self.logger.error` /
  `self.logger.warning`) are modelled as `LogMsg` events carried alongside
  results.  The textual rendering of the Python messages is abstracted; each
  event carries the data the real message interpolates.
* Python attribute values coming from YAML are untyped, so the record fields
  hold `Value`s; `consent`/`denial` additionally may hold a constructed
  nested record, reflected by `ConsentAttr`/`DenialAttr`.
-/

namespace Unicornia

/-- A value decoded from a YAML document (mappings restricted to string keys,
which is what every definition file uses; non-string keys would raise a
distinct `TypeError` at the `**` call site and are outside every claim). -/
inductive Value where
  | vnull : Value
  | vbool : Bool → Value
  | vint : Int → Value
  | vstr : String → Value
  | vlist : List Value → Value
  | vmap : List (String × Value) → Value

/-- Association-list lookup, modelling `dict.__getitem__` presence tests.
YAML mappings decode to Python dicts, so keys are effectively unique; lookup
returns the first binding. -/
def dictFind (d : List (String × Value)) (k : String) : Option Value :=
  (d.find? (fun p => p.1 == k)).map Prod.snd

/-- The keys of a decoded mapping. -/
def dictKeys (d : List (String × Value)) : List String :=
  d.map Prod.fst

/-- Consent dataclass: four required fields, no defaults. -/
structure Consent where
  active : Value
  passive : Value
  owner_active : Value
  owner_passive : Value

/-- Denial dataclass: `message` required, `roles` defaults to `[]` and a
bare string is wrapped into a one-element list by `__post_init__`. -/
structure Denial where
  message : Value
  roles : Value

/-- Python call `Consent(**m)`: binds the four required keyword arguments;
any other key or any missing key raises `TypeError`. -/
def Consent.ofDict (m : List (String × Value)) : Except String Consent :=
  if (dictKeys m).any
      (fun k => !(["active", "passive", "owner_active", "owner_passive"].contains k)) then
    Except.error "TypeError: unexpected keyword argument"
  else
    match dictFind m "active", dictFind m "passive",
        dictFind m "owner_active", dictFind m "owner_passive" with
    | some a, some p, some oa, some op => Except.ok ⟨a, p, oa, op⟩
    | _, _, _, _ => Except.error "TypeError: missing required argument"

/-- Python call `Denial(**m)` followed by `Denial.__post_init__`. -/
def Denial.ofDict (m : List (String × Value)) : Except String Denial :=
  if (dictKeys m).any (fun k => !(["message", "roles"].contains k)) then
    Except.error "TypeError: unexpected keyword argument"
  else
    match dictFind m "message" with
    | none => Except.error "TypeError: missing required argument message"
    | some msg =>
      let roles := (dictFind m "roles").getD (Value.vlist [])
      let roles := match roles with
        | Value.vstr s => Value.vlist [Value.vstr s]
        | v => v
      Except.ok ⟨msg, roles⟩

/-- The `consent` attribute after `Action.__post_init__`: either a raw value
(`None`, a non-mapping value, or — when `Consent(**…)` raised — the untouched
raw mapping) or a constructed `Consent` record. -/
inductive ConsentAttr where
  | raw : Value → ConsentAttr
  | record : Consent → ConsentAttr

/-- The `denial` attribute after `Action.__post_init__`. -/
inductive DenialAttr where
  | raw : Value → DenialAttr
  | record : Denial → DenialAttr

/-- Diagnostic events: the `print` calls in `Action.__post_init__` and the
`self.logger` calls in `ActionManager`. -/
inductive LogMsg where
  | badConsent : Value → LogMsg
  | badDenial : Value → LogMsg
  | parseError : String → LogMsg
  | notFound : String → LogMsg

/-- The `Action` dataclass after `__post_init__`. -/
structure Action where
  name : String
  description : Value
  help : Value
  aliases : Value
  credits : Value
  spoiler : Value
  images : Value
  consent : ConsentAttr
  denial : DenialAttr

/-- The field names `Action(**data)` accepts besides `name`. -/
def actionFieldKeys : List String :=
  ["description", "help", "aliases", "credits", "spoiler", "images", "consent", "denial"]

/-- Python call `Action(name=action_name, **data)`: keyword binding (duplicate `name`,
unexpected keys and the missing required `description`/`help` arguments all
raise `TypeError`), field defaults, then `__post_init__` normalisation.
Returns the action together with the diagnostics printed during
construction. -/
def mkAction (name : String) (d : List (String × Value)) :
    Except String (Action × List LogMsg) :=
  if (dictKeys d).contains "name" then
    Except.error "TypeError: got multiple values for argument name"
  else if (dictKeys d).any (fun k => !(actionFieldKeys.contains k)) then
    Except.error "TypeError: unexpected keyword argument"
  else
    match dictFind d "description", dictFind d "help" with
    | none, _ => Except.error "TypeError: missing required argument description"
    | _, none => Except.error "TypeError: missing required argument help"
    | some desc, some hl =>
      let aliases := (dictFind d "aliases").getD (Value.vlist [])
      let credits := (dictFind d "credits").getD Value.vnull
      let spoiler := (dictFind d "spoiler").getD (Value.vbool false)
      let images := (dictFind d "images").getD (Value.vlist [])
      let consent0 := (dictFind d "consent").getD Value.vnull
      let denial0 := (dictFind d "denial").getD Value.vnull
      -- __post_init__
      let desc := match desc with
        | Value.vnull =>
          Value.vstr ("\x7binvoker_member\x7d is " ++ name ++ "ing \x7btarget_member\x7d.")
        | v => v
      let hl := match hl with
        | Value.vnull => Value.vstr (name ++ "s a member.")
        | v => v
      let aliases := match aliases with
        | Value.vstr s => Value.vlist [Value.vstr s]
        | v => v
      let images := match images with
        | Value.vstr s => Value.vlist [Value.vstr s]
        | v => v
      let consentLog : ConsentAttr × List LogMsg := match consent0 with
        | Value.vmap m =>
          match Consent.ofDict m with
          | Except.ok c => (ConsentAttr.record c, [])
          | Except.error _ => (ConsentAttr.raw (Value.vmap m), [LogMsg.badConsent (Value.vmap m)])
        | v => (ConsentAttr.raw v, [])
      let denialLog : DenialAttr × List LogMsg := match denial0 with
        | Value.vmap m =>
          match Denial.ofDict m with
          | Except.ok dn => (DenialAttr.record dn, [])
          | Except.error _ => (DenialAttr.raw (Value.vmap m), [LogMsg.badDenial (Value.vmap m)])
        | v => (DenialAttr.raw v, [])
      Except.ok
        ({ name := name, description := desc, help := hl, aliases := aliases,
           credits := credits, spoiler := spoiler, images := images,
           consent := consentLog.1, denial := denialLog.1 },
          consentLog.2 ++ denialLog.2)

/-- Method `ActionManager.load`: `parsed` is the outcome of `yaml.safe_load` on the
file at `file_path` (`none` when the parser raised — the bare `except` logs
and returns `None`).  A non-mapping document makes `Action(name=…, **data)`
raise `TypeError`, which the code does not catch. -/
def loadFile (action_name : String) (file_path : String) (parsed : Option Value) :
    Except String (Option Action × List LogMsg) :=
  match parsed with
  | none => Except.ok (none, [LogMsg.parseError file_path])
  | some (Value.vmap d) =>
    match mkAction action_name d with
    | Except.ok (a, logs) => Except.ok (some a, logs)
    | Except.error e => Except.error e
  | some _ => Except.error "TypeError: argument after ** must be a mapping"

/-- One file found by the directory glob: its stem (the derived action name),
its path, and its parse outcome. -/
structure FileEntry where
  stem : String
  path : String
  parsed : Option Value

/-- Method `ActionManager.load_all`: loads each enumerated file in order, skipping
files for which `load` returned `None`; an uncaught exception from `load`
aborts the scan (and with it `ActionManager.__init__`). -/
def loadAll : List FileEntry → Except String (List Action × List LogMsg)
  | [] => Except.ok ([], [])
  | f :: rest =>
    match loadFile f.stem f.path f.parsed with
    | Except.error e => Except.error e
    | Except.ok (none, logs) =>
      match loadAll rest with
      | Except.error e => Except.error e
      | Except.ok (as, logs2) => Except.ok (as, logs ++ logs2)
    | Except.ok (some a, logs) =>
      match loadAll rest with
      | Except.error e => Except.error e
      | Except.ok (as, logs2) => Except.ok (a :: as, logs ++ logs2)

/-- The catalog state: `self.actions`. -/
structure ActionManager where
  actions : List Action

/-- Method `ActionManager.get`: linear scan for the first action whose `name` equals
the argument (exact, case-sensitive `==`); on a miss, logs a warning naming
the missing action and returns `None`.  Total — it never raises. -/
def ActionManager.get (m : ActionManager) (action_name : String) :
    Option Action × List LogMsg :=
  match m.actions.find? (fun a => a.name == action_name) with
  | some a => (some a, [])
  | none => (none, [LogMsg.notFound action_name])

/-- Method `ActionManager.list`: builds a fresh list of the loaded names and sorts
it ascending (`list.sort()` mutates only that fresh list, so the catalog is
untouched and repeated calls agree — in this pure embedding that is
definitional). -/
def ActionManager.list (m : ActionManager) : List String :=
  (m.actions.map Action.name).mergeSort

end Unicornia

namespace ModHelper

/-- A guild member, as the finder uses it: display name, username, id. -/
structure Member where
  display_name : String
  name : String
  id : Nat

/-- Splitting a character list on every (leftmost, non-overlapping)
occurrence of the two-character separator `" ("` — the semantics of the
Python call `user.split(" (")`. -/
def splitSpaceParen : List Char → List (List Char)
  | [] => [[]]
  | ' ' :: '(' :: rest => [] :: splitSpaceParen rest
  | c :: rest =>
    match splitSpaceParen rest with
    | [] => [[c]]
    | h :: t => (c :: h) :: t

/-- Python `user.split(" (")` on strings. -/
def labelSplit (s : String) : List String :=
  (splitSpaceParen s.toList).map (fun cs => String.mk cs)

/-- Python `name.rstrip(")")`: remove every trailing `)` character. -/
def rstripParen (s : String) : String :=
  String.mk (s.toList.reverse.dropWhile (fun c => c = ')')).reverse

/-- The loop body of `ModHelper.show_results`: walks the ranked matches,
drops those under `min_score`, splits each surviving label on `" ("` via
`labelSplit` (the tuple unpacking raises `ValueError` unless the split has
exactly two parts — modelled by the `Option String` error component,
messages sent before the raise kept), strips trailing `)` from the
username part, resolves
it against the members (`discord.utils.get`, first match on `name`), and for
a resolved member sends two messages: the header with display name, username
and score, then the member id. -/
def renderFound (min_score : Int) (members : List Member) :
    List (String × Int) → List String × Option String
  | [] => ([], none)
  | (user, score) :: rest =>
    if score < min_score then
      renderFound min_score members rest
    else
      match labelSplit user with
      | [_, n0] =>
        let uname := rstripParen n0
        match members.find? (fun m => m.name == uname) with
        | some mem =>
          let tail := renderFound min_score members rest
          (("### " ++ mem.display_name ++ " (" ++ mem.name ++ ") - "
              ++ toString score ++ "%") :: toString mem.id :: tail.1, tail.2)
        | none => renderFound min_score members rest
      | _ => ([], some "ValueError: unpacking split result")

/-- The final message of `show_results` when `found_users` is empty. -/
def noMatchesMsg (username : String) (min_score : Int) : String :=
  "No matches found for \x27" ++ username ++ "\x27 with the minimum score of "
    ++ toString min_score ++ "."

/-- Method `ModHelper.show_results`: the match loop, then — only when the ranked
list itself is empty — the "no matches" message. -/
def showResults (username : String) (found_users : List (String × Int))
    (min_score : Int) (members : List Member) : List String × Option String :=
  let r := renderFound min_score members found_users
  match r.2 with
  | some e => (r.1, some e)
  | none =>
    if found_users.isEmpty then
      (r.1 ++ [noMatchesMsg username min_score], none)
    else
      (r.1, none)

end ModHelper

namespace Unicornia

/-- Helper: a successful `Action(name=…, **d)` call yields the caller-supplied
`name` and the normalised `aliases`/`images` fields. -/
theorem mkAction_ok_fields {name : String} {d : List (String × Value)}
    {a : Action} {logs : List LogMsg}
    (h : mkAction name d = Except.ok (a, logs)) :
    a.name = name ∧
    a.aliases = (match (dictFind d "aliases").getD (Value.vlist []) with
      | Value.vstr s => Value.vlist [Value.vstr s]
      | v => v) ∧
    a.images = (match (dictFind d "images").getD (Value.vlist []) with
      | Value.vstr s => Value.vlist [Value.vstr s]
      | v => v) := by
  unfold mkAction at h
  split at h
  · exact Except.noConfusion h
  split at h
  · exact Except.noConfusion h
  split at h
  · exact Except.noConfusion h
  · exact Except.noConfusion h
  · simp only [Except.ok.injEq, Prod.mk.injEq] at h
    obtain ⟨rfl, -⟩ := h
    exact ⟨rfl, rfl, rfl⟩

end Unicornia

/-- C1: on a mapping whose `consent` value misses three of the four required
fields, `Action` construction does not raise and a diagnostic is emitted, but
the `consent` attribute is left as the untouched raw mapping — not `None` as
the specification states (the `except TypeError` branch only prints and never
clears the field, contradicting the declared `Optional[Consent]` type). -/
theorem c1_consent_left_raw_dict :
    Unicornia.mkAction "hug"
        [("description", .vstr "D"), ("help", .vstr "H"),
         ("consent", .vmap [("active", .vstr "A")])] =
      Except.ok
        ({ name := "hug", description := .vstr "D", help := .vstr "H",
           aliases := .vlist [], credits := .vnull, spoiler := .vbool false,
           images := .vlist [],
           consent := .raw (.vmap [("active", .vstr "A")]),
           denial := .raw .vnull },
         [.badConsent (.vmap [("active", .vstr "A")])]) ∧
    Unicornia.ConsentAttr.raw (.vmap [("active", .vstr "A")]) ≠
      Unicornia.ConsentAttr.raw .vnull := by
  refine ⟨rfl, fun h => ?_⟩
  injection h with h'
  exact Unicornia.Value.noConfusion h'

/-- C2 counterexample: a definition file that itself contains a `name` key
makes `load` raise (`Action(name=…, **data)` receives `name` twice), rather
than ignoring the key. -/
theorem c2_name_key_raises :
    Unicornia.loadFile "hug" "hug.yml"
      (some (.vmap [("name", .vstr "squeeze"), ("description", .vstr "D"),
        ("help", .vstr "H")])) =
    Except.error "TypeError: got multiple values for argument name" := rfl

/-- C2 (amended): for every definition file that loads successfully — which
requires that the file's mapping contain no `name` key — the resulting
Action's `name` equals the filename-derived name, and looking that name up
in a catalog containing the action returns an action of that name. -/
theorem c2_load_name_from_filename (stem path : String)
    (d : List (String × Unicornia.Value)) (a : Unicornia.Action)
    (logs : List Unicornia.LogMsg)
    (h : Unicornia.loadFile stem path (some (.vmap d)) = Except.ok (some a, logs)) :
    a.name = stem ∧
      ∀ m : Unicornia.ActionManager, a ∈ m.actions →
        ∃ b, (m.get stem).1 = some b ∧ b.name = stem := by
  have hmk : Unicornia.mkAction stem d = Except.ok (a, logs) := by
    simp only [Unicornia.loadFile] at h
    cases hm : Unicornia.mkAction stem d with
    | error e => rw [hm] at h; simp at h
    | ok r =>
      obtain ⟨a', logs'⟩ := r
      rw [hm] at h
      simp only [Except.ok.injEq, Prod.mk.injEq, Option.some.injEq] at h
      rw [h.1, h.2]
  have hname : a.name = stem := (Unicornia.mkAction_ok_fields hmk).1
  refine ⟨hname, fun m hmem => ?_⟩
  have hsome : (m.actions.find? (fun x => x.name == stem)).isSome := by
    rw [List.find?_isSome]
    exact ⟨a, hmem, by simp [hname]⟩
  obtain ⟨b, hb⟩ := Option.isSome_iff_exists.mp hsome
  have hbname : b.name = stem := by
    have := List.find?_some hb
    simpa using this
  refine ⟨b, ?_, hbname⟩
  unfold Unicornia.ActionManager.get
  rw [hb]

/-- C2 witness: a concrete valid file (`hug.yml` with description and help
only) loads to an action named `hug`, and `get "hug"` on a catalog holding it
finds an action named `hug`. -/
theorem c2_load_name_witness :
    ({ name := "hug", description := .vstr "D", help := .vstr "H",
       aliases := .vlist [], credits := .vnull, spoiler := .vbool false,
       images := .vlist [], consent := .raw .vnull,
       denial := .raw .vnull } : Unicornia.Action).name = "hug" ∧
    ∃ b, ((⟨[{ name := "hug", description := .vstr "D", help := .vstr "H",
               aliases := .vlist [], credits := .vnull, spoiler := .vbool false,
               images := .vlist [], consent := .raw .vnull,
               denial := .raw .vnull }]⟩ : Unicornia.ActionManager).get "hug").1 = some b ∧
      b.name = "hug" := by
  have h := c2_load_name_from_filename "hug" "hug.yml"
    [("description", .vstr "D"), ("help", .vstr "H")]
    { name := "hug", description := .vstr "D", help := .vstr "H",
      aliases := .vlist [], credits := .vnull, spoiler := .vbool false,
      images := .vlist [], consent := .raw .vnull, denial := .raw .vnull }
    [] rfl
  exact ⟨h.1, h.2 _ (by simp)⟩

/-- C3 counterexample: a mapping with only a `description` key (the spec's
wave.yml scenario) does not construct with a generated `help`; construction
raises, because `help` is a required dataclass field with no default. -/
theorem c3_absent_help_raises :
    Unicornia.mkAction "wave"
      [("description", .vstr "\x7binvoker_member\x7d waves at \x7btarget_member\x7d.")] =
    Except.error "TypeError: missing required argument help" := rfl

/-- C3 (amended): the generated templates are applied only when the
`description`/`help` keys are present with null values (the `__post_init__`
checks `is None`); with both null, construction succeeds, `description`
becomes "{invoker_member} is <name>ing {target_member}." and `help` becomes
"<name>s a member.", while a mapping in which either key is entirely absent
is a construction error. -/
theorem c3_null_fields_defaulted (name : String) :
    Unicornia.mkAction name [("description", .vnull), ("help", .vnull)] =
      Except.ok
        ({ name := name,
           description := .vstr ("\x7binvoker_member\x7d is " ++ name
             ++ "ing \x7btarget_member\x7d."),
           help := .vstr (name ++ "s a member."),
           aliases := .vlist [], credits := .vnull, spoiler := .vbool false,
           images := .vlist [], consent := .raw .vnull,
           denial := .raw .vnull }, []) ∧
    Unicornia.mkAction name [("description", .vnull)] =
      Except.error "TypeError: missing required argument help" ∧
    Unicornia.mkAction name [("help", .vnull)] =
      Except.error "TypeError: missing required argument description" :=
  ⟨rfl, rfl, rfl⟩

/-- C4: a file whose contents `yaml.safe_load` cannot parse makes `load` log
an error naming the file path and return `None` without raising; in
`load_all` such a file contributes no catalog entry (so its name cannot show
up in `list()`) and the remaining files are processed exactly as without
it. -/
theorem c4_parse_failure_skipped (stem path : String)
    (rest : List Unicornia.FileEntry) :
    Unicornia.loadFile stem path none =
        Except.ok (none, [Unicornia.LogMsg.parseError path]) ∧
    Unicornia.loadAll ({ stem := stem, path := path, parsed := none } :: rest) =
        (Unicornia.loadAll rest).map
          (fun r => (r.1, Unicornia.LogMsg.parseError path :: r.2)) ∧
    (Unicornia.loadAll ({ stem := stem, path := path, parsed := none } :: rest)).map
          (fun r => Unicornia.ActionManager.list ⟨r.1⟩) =
        (Unicornia.loadAll rest).map
          (fun r => Unicornia.ActionManager.list ⟨r.1⟩) := by
  refine ⟨rfl, ?_, ?_⟩
  · cases hr : Unicornia.loadAll rest with
    | error e => simp [Unicornia.loadAll, Unicornia.loadFile, hr, Except.map]
    | ok r =>
      obtain ⟨as, logs⟩ := r
      simp [Unicornia.loadAll, Unicornia.loadFile, hr, Except.map]
  · cases hr : Unicornia.loadAll rest with
    | error e => simp [Unicornia.loadAll, Unicornia.loadFile, hr, Except.map]
    | ok r =>
      obtain ⟨as, logs⟩ := r
      simp [Unicornia.loadAll, Unicornia.loadFile, hr, Except.map]

/-- C5: for every Action built from a raw mapping, the `aliases` and `images`
attributes are sequences for the inputs the schema admits: an absent key
defaults to the empty list, a bare string is wrapped into a one-element list,
and a list input is kept as is. -/
theorem c5_aliases_images_normalised (name : String)
    (d : List (String × Unicornia.Value)) (a : Unicornia.Action)
    (logs : List Unicornia.LogMsg)
    (h : Unicornia.mkAction name d = Except.ok (a, logs)) :
    (Unicornia.dictFind d "aliases" = none → a.aliases = .vlist []) ∧
    (∀ s, Unicornia.dictFind d "aliases" = some (.vstr s) →
        a.aliases = .vlist [.vstr s]) ∧
    (∀ xs, Unicornia.dictFind d "aliases" = some (.vlist xs) →
        a.aliases = .vlist xs) ∧
    (Unicornia.dictFind d "images" = none → a.images = .vlist []) ∧
    (∀ s, Unicornia.dictFind d "images" = some (.vstr s) →
        a.images = .vlist [.vstr s]) ∧
    (∀ xs, Unicornia.dictFind d "images" = some (.vlist xs) →
        a.images = .vlist xs) := by
  obtain ⟨-, hal, him⟩ := Unicornia.mkAction_ok_fields h
  refine ⟨fun hf => ?_, fun s hf => ?_, fun xs hf => ?_,
    fun hf => ?_, fun s hf => ?_, fun xs hf => ?_⟩
  · rw [hal, hf]; rfl
  · rw [hal, hf]; rfl
  · rw [hal, hf]; rfl
  · rw [him, hf]; rfl
  · rw [him, hf]; rfl
  · rw [him, hf]; rfl

/-- C5 witness: a concrete file with a bare-string `aliases` and a one-element
list `images` yields a wrapped `aliases` list and the `images` list kept. -/
theorem c5_sequences_witness :
    ({ name := "hug", description := .vstr "D", help := .vstr "H",
       aliases := .vlist [.vstr "cuddle"], credits := .vnull,
       spoiler := .vbool false, images := .vlist [.vstr "u"],
       consent := .raw .vnull,
       denial := .raw .vnull } : Unicornia.Action).aliases =
        .vlist [.vstr "cuddle"] ∧
    ({ name := "hug", description := .vstr "D", help := .vstr "H",
       aliases := .vlist [.vstr "cuddle"], credits := .vnull,
       spoiler := .vbool false, images := .vlist [.vstr "u"],
       consent := .raw .vnull,
       denial := .raw .vnull } : Unicornia.Action).images =
        .vlist [.vstr "u"] := by
  have h := c5_aliases_images_normalised "hug"
    [("description", .vstr "D"), ("help", .vstr "H"),
     ("aliases", .vstr "cuddle"), ("images", .vlist [.vstr "u"])]
    { name := "hug", description := .vstr "D", help := .vstr "H",
      aliases := .vlist [.vstr "cuddle"], credits := .vnull,
      spoiler := .vbool false, images := .vlist [.vstr "u"],
      consent := .raw .vnull, denial := .raw .vnull }
    [] rfl
  exact ⟨h.2.1 "cuddle" rfl, h.2.2.2.2.2 [.vstr "u"] rfl⟩

/-- C6: `list()` is exactly the multiset of loaded action names, sorted
lexicographically ascending; it reads the catalog only through a fresh list
of names, so in this pure embedding the catalog is unchanged and repeated
calls agree definitionally. -/
theorem c6_list_sorted_names (m : Unicornia.ActionManager) :
    m.list.Sorted (· ≤ ·) ∧
      m.list.Perm (m.actions.map Unicornia.Action.name) := by
  constructor
  · exact List.sorted_mergeSort' _
  · exact List.mergeSort_perm _ _

/-- C7: `get` scans the loaded actions for an exact, case-sensitive name
match: any returned action has the requested name, is in the catalog, and is
returned without a warning; when no loaded action matches, `get` returns
`None` together with the logged warning (it is a total function — it never
raises). -/
theorem c7_get_linear_scan (m : Unicornia.ActionManager) (name : String) :
    (∀ a, (m.get name).1 = some a →
        a.name = name ∧ a ∈ m.actions ∧ m.get name = (some a, [])) ∧
    ((∀ a ∈ m.actions, a.name ≠ name) →
        m.get name = (none, [Unicornia.LogMsg.notFound name])) := by
  constructor
  · intro a ha
    unfold Unicornia.ActionManager.get at ha ⊢
    cases hf : m.actions.find? (fun x => x.name == name) with
    | none => rw [hf] at ha; exact Option.noConfusion ha
    | some b =>
      rw [hf] at ha
      have hba : b = a := by simpa using ha
      subst hba
      have hname : b.name = name := by simpa using List.find?_some hf
      exact ⟨hname, List.mem_of_find?_eq_some hf, rfl⟩
  · intro hnone
    unfold Unicornia.ActionManager.get
    have hf : m.actions.find? (fun x => x.name == name) = none := by
      rw [List.find?_eq_none]
      intro x hx
      simpa using hnone x hx
    rw [hf]

/-- C7 witness: on a catalog holding only a `wave` action,
`get "nonexistent"` returns `None` and logs the warning. -/
theorem c7_get_witness :
    (⟨[{ name := "wave", description := .vstr "D", help := .vstr "H",
         aliases := .vlist [], credits := .vnull, spoiler := .vbool false,
         images := .vlist [], consent := .raw .vnull,
         denial := .raw .vnull }]⟩ : Unicornia.ActionManager).get "nonexistent" =
      (none, [Unicornia.LogMsg.notFound "nonexistent"]) := by
  refine (c7_get_linear_scan _ "nonexistent").2 ?_
  intro a ha
  rw [List.mem_singleton] at ha
  subst ha
  decide

/-- C8: any raw mapping containing a top-level key outside the recognized
schema (description, help, aliases, credits, spoiler, images, consent,
denial) makes Action construction fail with a TypeError instead of ignoring
the key (a key `name` in the file is likewise outside this set and also
fails, as a duplicate argument). -/
theorem c8_unknown_key_error (name : String)
    (d : List (String × Unicornia.Value)) (k : String)
    (hk : k ∈ Unicornia.dictKeys d)
    (hout : Unicornia.actionFieldKeys.contains k = false) :
    ∃ e, Unicornia.mkAction name d = Except.error e := by
  unfold Unicornia.mkAction
  split
  · exact ⟨_, rfl⟩
  · have hany : (Unicornia.dictKeys d).any
        (fun k => !(Unicornia.actionFieldKeys.contains k)) = true := by
      rw [List.any_eq_true]
      exact ⟨k, hk, by rw [hout]; rfl⟩
    rw [if_pos hany]
    exact ⟨_, rfl⟩

/-- C8 witness: the unrecognized key `sound` makes construction fail. -/
theorem c8_unknown_key_witness :
    ∃ e, Unicornia.mkAction "hug"
        [("description", .vstr "D"), ("help", .vstr "H"),
         ("sound", .vstr "boop")] = Except.error e :=
  c8_unknown_key_error "hug" _ "sound" (by decide) rfl

/-- C10 (implicit): a file that is valid YAML but does not decode to a
mapping (null from an empty file, a bare string, a list, …) makes `load`
raise a TypeError at the `Action(name=…, **data)` expansion instead of
logging and returning None — the expansion sits outside the try/except. -/
theorem c10_nonmapping_raises (stem path : String) (v : Unicornia.Value)
    (h : ∀ m, v ≠ Unicornia.Value.vmap m) :
    Unicornia.loadFile stem path (some v) =
      Except.error "TypeError: argument after ** must be a mapping" := by
  cases v with
  | vmap m => exact absurd rfl (h m)
  | vnull => rfl
  | vbool b => rfl
  | vint n => rfl
  | vstr s => rfl
  | vlist xs => rfl

/-- C10 witness: an empty file decodes to null and `load` raises. -/
theorem c10_nonmapping_witness :
    Unicornia.loadFile "empty" "actions/empty.yml" (some .vnull) =
      Except.error "TypeError: argument after ** must be a mapping" :=
  c10_nonmapping_raises "empty" "actions/empty.yml" .vnull
    (fun _ hm => Unicornia.Value.noConfusion hm)

/-- Helper: when every ranked match falls below the threshold, the
`show_results` loop emits nothing. -/
theorem renderFound_below_all (ms : Int) (members : List ModHelper.Member)
    (found : List (String × Int)) (h : ∀ p ∈ found, p.2 < ms) :
    ModHelper.renderFound ms members found = ([], none) := by
  induction found with
  | nil => rfl
  | cons p rest ih =>
    obtain ⟨user, score⟩ := p
    have hs : score < ms := h _ (List.mem_cons_self _ _)
    simp only [ModHelper.renderFound]
    rw [if_pos hs]
    exact ih (fun q hq => h q (List.mem_cons_of_mem _ hq))

/-- C9 counterexample: with one candidate scored 50 against a threshold of
70, no match survives yet no message at all is emitted — in particular no
"no matches" message; and a surviving match (90) whose username contains a
trailing `)` is silently skipped because the parsed-back username does not
resolve to a member, again emitting nothing. -/
theorem c9_below_threshold_no_message :
    ModHelper.showResults "ann" [("Anna (anna1)", 50)] 70
        [{ display_name := "Anna", name := "anna1", id := 1 }] = ([], none) ∧
    ModHelper.showResults "q" [("Ann (x))", 90)] 70
        [{ display_name := "Ann", name := "x)", id := 5 }] = ([], none) :=
  ⟨rfl, rfl⟩

/-- C9 (amended): matches below `minScore` are discarded; a surviving match
whose label parses back into two parts and resolves to a member is rendered
as one block of two messages (display name, username and score, then the
member id); the "no matches" message is emitted exactly when the ranked list
itself is empty — when candidates exist but none survives (or none
resolves), nothing is emitted. -/
theorem c9_threshold_and_messages (u : String) (ms : Int)
    (members : List ModHelper.Member) :
    (∀ found, found ≠ [] → (∀ p ∈ found, p.2 < ms) →
        ModHelper.showResults u found ms members = ([], none)) ∧
    ModHelper.showResults u [] ms members =
        ([ModHelper.noMatchesMsg u ms], none) ∧
    (∀ user score rest dn n0 mem, ¬ score < ms →
        ModHelper.labelSplit user = [dn, n0] →
        members.find? (fun m => m.name == ModHelper.rstripParen n0) = some mem →
        ModHelper.renderFound ms members ((user, score) :: rest) =
          (("### " ++ mem.display_name ++ " (" ++ mem.name ++ ") - "
              ++ toString score ++ "%") ::
            toString mem.id :: (ModHelper.renderFound ms members rest).1,
           (ModHelper.renderFound ms members rest).2)) ∧
    (∀ user score rest, score < ms →
        ModHelper.renderFound ms members ((user, score) :: rest) =
          ModHelper.renderFound ms members rest) := by
  refine ⟨?_, rfl, ?_, ?_⟩
  · intro found hne hall
    have hr := renderFound_below_all ms members found hall
    cases found with
    | nil => exact absurd rfl hne
    | cons p l =>
      simp only [ModHelper.showResults]
      rw [hr]
      rfl
  · intro user score rest dn n0 mem hsc hsplit hfind
    simp only [ModHelper.renderFound]
    rw [if_neg hsc, hsplit]
    dsimp only
    rw [hfind]
  · intro user score rest hsc
    simp only [ModHelper.renderFound]
    rw [if_pos hsc]

/-- C9 witness: one candidate scored 80 against threshold 70 that resolves
back to the member is rendered as the two-message block. -/
theorem c9_rendered_block_witness :
    ModHelper.renderFound 70
        [{ display_name := "Anna", name := "anna1", id := 7 }]
        [("Anna (anna1)", 80)] = (["### Anna (anna1) - 80%", "7"], none) := by
  have h := (c9_threshold_and_messages "ann" 70
      [{ display_name := "Anna", name := "anna1", id := 7 }]).2.2.1
    "Anna (anna1)" 80 [] "Anna" "anna1)"
    { display_name := "Anna", name := "anna1", id := 7 }
    (by decide) rfl rfl
  rw [h]
  rfl
